import Mathlib

/-!
Verification of the b2b-custom-allocators repository: a family of manual
memory allocators (arena/bump, fixed-size pool with chunked growth, and a
LIFO stack allocator with markers).

All machine integers in the C++ sources are `size_t`; they are modelled as
`Nat` with an explicit `% 2 ^ 64` wherever wrap-around can occur, and the
bitwise complement `~x` of a 64-bit word is written `2 ^ 64 - 1 - x`
(identical for `x < 2 ^ 64`).  Addresses returned by the bump allocators are
modelled as byte offsets from the start of the backing buffer (the buffer
base is the zero address); pool slot addresses are modelled as
(chunk index, slot index) pairs or slot indices, following the index-based
representation suggested by the design notes of the repository.
-/

/-- The number of values of the C++ type `size_t` (64-bit): arithmetic on
`size_t` is arithmetic modulo `USIZE`. -/
def USIZE : Nat := 2 ^ 64

/-! ## ArenaAllocator (src/3_pooling/arena-vs-pool.cpp)

```cpp
class ArenaAllocator {
  char* memory; size_t size; size_t offset;
  void* allocate(size_t bytes, size_t alignment) {
    size_t aligned_offset = (offset + alignment - 1) & ~(alignment - 1);
    if (aligned_offset + bytes > size) { return nullptr; }
    void* ptr = memory + aligned_offset;
    offset = aligned_offset + bytes;
    return ptr;
  }
  void reset() { offset = 0; }
  size_t save() const { return offset; }
  void restore(size_t saved_offset) { offset = saved_offset; }
};
```
-/

/-- The state of `ArenaAllocator`: capacity `size` of the backing buffer and
the bump cursor `offset`.  The buffer contents are never read by the
allocator and are not modelled. -/
structure ArenaAllocator where
  size : Nat
  offset : Nat
deriving DecidableEq, Repr

namespace ArenaAllocator

/-- Model of `ArenaAllocator::allocate(bytes, alignment)`.  Returns the address of the
allocation (an offset into the arena, `none` for the `nullptr`
out-of-memory result) together with the updated allocator state.  All
`size_t` additions wrap modulo `2 ^ 64`; `~(alignment - 1)` is the 64-bit
complement (the definition assumes `alignment ≥ 1`, which holds for every
alignment of a C++ object type). -/
def allocate (a : ArenaAllocator) (bytes alignment : Nat) :
    Option Nat × ArenaAllocator :=
  let aligned_offset :=
    ((a.offset + alignment - 1) % USIZE) &&& (USIZE - 1 - (alignment - 1))
  if a.size < (aligned_offset + bytes) % USIZE then
    (none, a)
  else
    (some aligned_offset, { a with offset := (aligned_offset + bytes) % USIZE })

/-- Model of `ArenaAllocator::reset()`. -/
def reset (a : ArenaAllocator) : ArenaAllocator :=
  { a with offset := 0 }

/-- Model of `ArenaAllocator::save()`. -/
def save (a : ArenaAllocator) : Nat :=
  a.offset

/-- Model of `ArenaAllocator::restore(saved_offset)`: sets the offset unconditionally;
the source performs no validation of the marker against the current offset. -/
def restore (a : ArenaAllocator) (saved_offset : Nat) : ArenaAllocator :=
  { a with offset := saved_offset }

end ArenaAllocator

/-! ## StackAllocator (src/4_stack/basic_stack.cpp)

```cpp
class StackAllocator {
  char* memory_; std::size_t total_size_; std::size_t current_offset_;
  static std::size_t align_up(std::size_t value, std::size_t alignment) {
    return (value + alignment - 1) & ~(alignment - 1);
  }
  void* allocate(std::size_t bytes, std::size_t alignment) {
    std::size_t aligned_offset = align_up(current_offset_, alignment);
    if (aligned_offset + bytes > total_size_) { throw std::bad_alloc(); }
    void* ptr = memory_ + aligned_offset;
    current_offset_ = aligned_offset + bytes;
    return ptr;
  }
  std::size_t get_marker() const { return current_offset_; }
  void free_to_marker(std::size_t marker) {
    if (marker > current_offset_) { /* print warning */ return; }
    current_offset_ = marker;
  }
  void clear() { current_offset_ = 0; }
};
```
-/

/-- The state of `StackAllocator`: buffer capacity `total_size` and the
current top of stack `current_offset`. -/
structure StackAllocator where
  total_size : Nat
  current_offset : Nat
deriving DecidableEq, Repr

namespace StackAllocator

/-- Model of `StackAllocator::align_up(value, alignment)`: the 64-bit computation
`(value + alignment - 1) & ~(alignment - 1)` (assumes `alignment ≥ 1`). -/
def align_up (value alignment : Nat) : Nat :=
  ((value + alignment - 1) % USIZE) &&& (USIZE - 1 - (alignment - 1))

/-- Model of `StackAllocator::allocate(bytes, alignment)`.  The thrown
`std::bad_alloc` is modelled as the address result `none`; the throw happens
before any mutation, so the state is returned unchanged in that case. -/
def allocate (st : StackAllocator) (bytes alignment : Nat) :
    Option Nat × StackAllocator :=
  let aligned_offset := align_up st.current_offset alignment
  if st.total_size < (aligned_offset + bytes) % USIZE then
    (none, st)
  else
    (some aligned_offset,
      { st with current_offset := (aligned_offset + bytes) % USIZE })

/-- Model of `StackAllocator::get_marker()`. -/
def get_marker (st : StackAllocator) : Nat :=
  st.current_offset

/-- Model of `StackAllocator::free_to_marker(marker)`.  The boolean records whether
the invalid-marker warning was printed (the `marker > current_offset_`
branch, which returns without modifying the state). -/
def free_to_marker (st : StackAllocator) (marker : Nat) :
    StackAllocator × Bool :=
  if st.current_offset < marker then
    (st, true)
  else
    ({ st with current_offset := marker }, false)

/-- Model of `StackAllocator::clear()`. -/
def clear (st : StackAllocator) : StackAllocator :=
  { st with current_offset := 0 }

end StackAllocator

/-! ## PoolAllocator (src/3_pooling/arena-vs-pool.cpp)

```cpp
template<typename T> class PoolAllocator {
  struct Block { alignas(T) char data[sizeof(T)]; Block* next; };
  Block* freeList;
  std::vector<std::unique_ptr<char[]>> chunks;
  size_t objectsPerChunk; size_t totalAllocated; size_t totalDeallocated;
  void allocateChunk() {
    auto chunk = std::make_unique<char[]>(objectsPerChunk * sizeof(Block));
    Block* blocks = reinterpret_cast<Block*>(chunk.get());
    for (size_t i = 0; i < objectsPerChunk - 1; ++i)
      blocks[i].next = &blocks[i + 1];
    blocks[objectsPerChunk - 1].next = freeList;
    freeList = blocks;
    chunks.push_back(std::move(chunk));
  }
  T* allocate() {
    if (!freeList) { allocateChunk(); }
    Block* block = freeList; freeList = freeList->next; totalAllocated++;
    return reinterpret_cast<T*>(block);
  }
  void deallocate(T* ptr) {
    if (!ptr) return;
    Block* block = reinterpret_cast<Block*>(ptr);
    block->next = freeList; freeList = block; totalDeallocated++;
  }
};
```

A slot address is modelled as the pair (chunk index, slot index within the
chunk); the intrusive singly-linked free list is modelled as the list of
slots in traversal order from `freeList` to the null sentinel.  After
`allocateChunk` the traversal visits the new chunk slots in index order
(slot `i` links to slot `i + 1`, the last slot links to the previous head),
i.e. the new chunk is prepended as a whole.  The chunk collection is
modelled by its size (the chunk count); the model assumes
`objectsPerChunk ≥ 1` — for `objectsPerChunk = 0` the C++ linking loop runs
out of bounds (undefined behavior). -/

/-- A pool slot address: (chunk index, slot index within the chunk). -/
abbrev Slot : Type := Nat × Nat

/-- The slots of a single chunk, in index order. -/
def chunkSlots (chunkIdx count : Nat) : List Slot :=
  (List.range count).map fun i => (chunkIdx, i)

/-- The state of the growable `PoolAllocator`. -/
structure PoolAllocator where
  freeList : List Slot
  chunks : Nat
  objectsPerChunk : Nat
  totalAllocated : Nat
  totalDeallocated : Nat
deriving DecidableEq, Repr

namespace PoolAllocator

/-- Model of `PoolAllocator::allocateChunk()`: links the new chunk slots in index
order in front of the previous free-list head and records the chunk. -/
def allocateChunk (p : PoolAllocator) : PoolAllocator :=
  { p with
    freeList := chunkSlots p.chunks p.objectsPerChunk ++ p.freeList
    chunks := p.chunks + 1 }

/-- The `PoolAllocator(objectsPerChunk)` constructor: empty free list, no
chunks, then one `allocateChunk()`. -/
def init (objectsPerChunk : Nat) : PoolAllocator :=
  allocateChunk
    { freeList := [], chunks := 0, objectsPerChunk := objectsPerChunk,
      totalAllocated := 0, totalDeallocated := 0 }

/-- Model of `PoolAllocator::allocate()`: grows when the free list is empty, then
pops the head.  A `none` result models the null-pointer dereference the C++
would perform if the free list were still empty after growing (only possible
with `objectsPerChunk = 0`). -/
def allocate (p : PoolAllocator) : Option Slot × PoolAllocator :=
  let p1 := if p.freeList.isEmpty then p.allocateChunk else p
  match p1.freeList with
  | [] => (none, p1)
  | b :: rest =>
    (some b,
      { p1 with freeList := rest, totalAllocated := p1.totalAllocated + 1 })

/-- Model of `PoolAllocator::deallocate(ptr)`: `none` models the null pointer (early
return); otherwise the slot is pushed onto the head of the free list. -/
def deallocate (p : PoolAllocator) (ptr : Option Slot) : PoolAllocator :=
  match ptr with
  | none => p
  | some b =>
    { p with freeList := b :: p.freeList,
             totalDeallocated := p.totalDeallocated + 1 }

/-- Model of `PoolAllocator::getChunkCount()`. -/
def getChunkCount (p : PoolAllocator) : Nat :=
  p.chunks

/-- Model of `PoolAllocator::getActiveObjects()`. -/
def getActiveObjects (p : PoolAllocator) : Nat :=
  p.totalAllocated - p.totalDeallocated

end PoolAllocator

/-! ## SimplePoolAllocator (src/3_pooling/simple-pool-allocator-manual.cpp
and src/3_pooling/simple-pool-allocator.cpp)

```cpp
template<typename T, size_t PoolSize = 8> class SimplePoolAllocator {
  alignas(T) char pool_[PoolSize * sizeof(T)];
  struct FreeNode { FreeNode* next; };
  FreeNode* free_head_ = nullptr;
  size_t allocated_count_ = 0;
  void initialize_pool() {
    // threads slot 0 -> slot 1 -> ... -> slot PoolSize-1 -> nullptr
  }
  T* allocate() {                       // manual variant
    if (free_head_ == nullptr) { throw std::bad_alloc(); }
    T* result = reinterpret_cast<T*>(free_head_);
    free_head_ = free_head_->next; ++allocated_count_;
    return result;
  }
  void deallocate(T* p) {               // manual variant
    if (p == nullptr) return;
    if (p < reinterpret_cast<T*>(pool_) ||
        p >= reinterpret_cast<T*>(pool_ + sizeof(pool_))) { return; }
    FreeNode* node = reinterpret_cast<FreeNode*>(p);
    node->next = free_head_; free_head_ = node; --allocated_count_;
  }
};
```

A slot address `pool_ + i * sizeof(T)` is modelled by the slot index `i`; a
`T*` argument is modelled as `Option Int`: `none` for the null pointer, and
`some i` for the address at (possibly negative, possibly out-of-range) slot
index `i` relative to the pool base.  The free list is the list of slot
indices in traversal order.  `allocated_count_` is only ever decremented in
states where it is positive in the executions considered here, so the
truncated `Nat` subtraction coincides with the `size_t` decrement. -/

/-- The state of `SimplePoolAllocator` with `PoolSize = poolSize`. -/
structure SimplePoolAllocator where
  poolSize : Nat
  free_head : List Nat
  allocated_count : Nat
deriving DecidableEq, Repr

namespace SimplePoolAllocator

/-- The constructor (which calls `initialize_pool()`): the free list threads
the slots in index order `0, 1, ..., PoolSize - 1`. -/
def init (poolSize : Nat) : SimplePoolAllocator :=
  { poolSize := poolSize, free_head := List.range poolSize,
    allocated_count := 0 }

/-- Model of `SimplePoolAllocator::allocate()` (manual variant): pops the free-list
head; `none` models the thrown `std::bad_alloc` on exhaustion (the throw
happens before any mutation). -/
def allocate (p : SimplePoolAllocator) : Option Nat × SimplePoolAllocator :=
  match p.free_head with
  | [] => (none, p)
  | h :: t =>
    (some h,
      { p with free_head := t, allocated_count := p.allocated_count + 1 })

/-- Model of `SimplePoolAllocator::deallocate(p)` (manual variant): a null pointer
and a pointer outside `[pool_, pool_ + PoolSize * sizeof(T))` are rejected
without touching the state; otherwise the slot is pushed onto the free-list
head. -/
def deallocate (p : SimplePoolAllocator) (ptr : Option Int) :
    SimplePoolAllocator :=
  match ptr with
  | none => p
  | some i =>
    if i < 0 ∨ (p.poolSize : Int) ≤ i then
      p
    else
      { p with free_head := i.toNat :: p.free_head,
               allocated_count := p.allocated_count - 1 }

/-- Model of `SimplePoolAllocator::deallocate(p, n)` from
src/3_pooling/simple-pool-allocator.cpp (the `allocator_traits` variant): in
addition to the null and bounds checks, `n != 1` is rejected without
touching the state. -/
def deallocateTraits (p : SimplePoolAllocator) (ptr : Option Int) (n : Nat) :
    SimplePoolAllocator :=
  if n ≠ 1 ∨ ptr = none then
    p
  else
    match ptr with
    | none => p
    | some i =>
      if i < 0 ∨ (p.poolSize : Int) ≤ i then
        p
      else
        { p with free_head := i.toNat :: p.free_head,
                 allocated_count := p.allocated_count - 1 }

/-- Iterate `allocate()` a given number of times, collecting the returned
addresses in call order (models a client performing consecutive
allocations). -/
def allocIter (p : SimplePoolAllocator) :
    Nat → List (Option Nat) × SimplePoolAllocator
  | 0 => ([], p)
  | j + 1 =>
    let (rs, p1) := allocIter p j
    let (r, p2) := p1.allocate
    (rs ++ [r], p2)

end SimplePoolAllocator

/-! ## Allocator handle equality (src/3_pooling/pooling-allocator.cpp and
src/4_stack/basic_stack_traits.cpp)

```cpp
// pooling-allocator.cpp: each PoolAllocator instance owns its own pool
// (poolStart_), yet:
bool operator==(const PoolAllocator &) const { return true; }
bool operator!=(const PoolAllocator &) const { return false; }

// basic_stack_traits.cpp: handles share a StackState* state_:
bool operator==(const StackAllocator& other) const noexcept {
  return state_ == other.state_;  // Same underlying stack
}
bool operator!=(const StackAllocator& other) const noexcept {
  return !(*this == other);
}
```

A handle is modelled by the identity of its backing storage: `poolId` stands
for the `poolStart_` buffer the pooling-allocator.cpp instance owns, and
`state` for the `StackState*` pointer a basic_stack_traits.cpp handle
shares.  Distinct identities mean distinct backing storage. -/

/-- A handle of the `PoolAllocator` of src/3_pooling/pooling-allocator.cpp,
identified by the pool buffer it owns. -/
structure PoolHandle where
  poolId : Nat
deriving DecidableEq, Repr

/-- Model of `PoolAllocator::operator==` of src/3_pooling/pooling-allocator.cpp:
ignores both operands. -/
def PoolHandle.eq (_ _ : PoolHandle) : Bool :=
  true

/-- Model of `PoolAllocator::operator!=` of src/3_pooling/pooling-allocator.cpp. -/
def PoolHandle.ne (_ _ : PoolHandle) : Bool :=
  false

/-- A handle of the `StackAllocator` of src/4_stack/basic_stack_traits.cpp,
identified by the shared `StackState*` it points to. -/
structure StackHandle where
  state : Nat
deriving DecidableEq, Repr

/-- Model of `StackAllocator::operator==` of src/4_stack/basic_stack_traits.cpp:
compares the shared-state pointers. -/
def StackHandle.eq (a b : StackHandle) : Bool :=
  a.state == b.state

/-- Model of `StackAllocator::operator!=` of src/4_stack/basic_stack_traits.cpp. -/
def StackHandle.ne (a b : StackHandle) : Bool :=
  !(StackHandle.eq a b)

/-! ## Client operation traces for the growable pool

To state the pool conservation property over every well-formed sequence of
client calls, a trace of `allocate` / `deallocate` calls is executed against
the pool together with a ghost list `live` of the slots currently handed
out.  A `deallocate` whose argument is not currently handed out violates the
documented no-double-free / no-foreign-pointer precondition, and an
`allocate` that would dereference a null free list is undefined behavior, so
`stepPool` signals both as `none` (invalid trace). -/

/-- One client call on the growable pool. -/
inductive PoolOp where
  | alloc : PoolOp
  | dealloc : Slot → PoolOp
deriving DecidableEq, Repr

/-- Remove the first occurrence of a slot from the ghost list. -/
def removeSlot : List Slot → Slot → List Slot
  | [], _ => []
  | x :: xs, b => if x = b then xs else x :: removeSlot xs b

/-- Execute one client call; the ghost component tracks the handed-out
slots (most recently handed out first). -/
def stepPool (s : PoolAllocator × List Slot) (op : PoolOp) :
    Option (PoolAllocator × List Slot) :=
  match op with
  | .alloc =>
    match s.1.allocate with
    | (some b, p1) => some (p1, b :: s.2)
    | (none, _) => none
  | .dealloc b =>
    if b ∈ s.2 then
      some (s.1.deallocate (some b), removeSlot s.2 b)
    else
      none

/-- Execute a trace of client calls. -/
def runPool (s : PoolAllocator × List Slot) :
    List PoolOp → Option (PoolAllocator × List Slot)
  | [] => some s
  | op :: ops =>
    match stepPool s op with
    | none => none
    | some s1 => runPool s1 ops

/-- All slots of the pool, chunk by chunk. -/
def allSlots (p : PoolAllocator) : List Slot :=
  (List.range p.chunks).flatMap fun c => chunkSlots c p.objectsPerChunk

/-- The conservation invariant: the free list together with the handed-out
slots is a permutation of all slots of all chunks, and the allocation
counters account for the handed-out slots. -/
def PoolInv (p : PoolAllocator) (live : List Slot) : Prop :=
  (p.freeList ++ live).Perm (allSlots p) ∧
  p.totalAllocated = p.totalDeallocated + live.length

/-! ## Arithmetic facts about the alignment mask -/

/-- For `k ≤ 64`, the 64-bit complement of `2 ^ k - 1` equals
`2 ^ 64 - 2 ^ k`. -/
theorem usize_mask_eq (k : Nat) (hk : k ≤ 64) :
    USIZE - 1 - (2 ^ k - 1) = 2 ^ 64 - 2 ^ k := by
  have h1 : (1 : Nat) ≤ 2 ^ k := Nat.one_le_two_pow
  have h2 : 2 ^ k ≤ 2 ^ 64 := Nat.pow_le_pow_right (by omega) hk
  unfold USIZE
  omega

/-- The mask `2 ^ 64 - 2 ^ k` as a shifted all-ones word. -/
theorem usize_mask_shift (k : Nat) (hk : k ≤ 64) :
    2 ^ 64 - 2 ^ k = (2 ^ (64 - k) - 1) <<< k := by
  rw [Nat.shiftLeft_eq, Nat.sub_mul, ← Nat.pow_add, Nat.sub_add_cancel hk,
    Nat.one_mul]

/-- The low `k` bits of the alignment mask `2 ^ 64 - 2 ^ k` are all zero. -/
theorem usize_mask_testBit_low (k i : Nat) (hk : k ≤ 64) (hik : i < k) :
    (2 ^ 64 - 2 ^ k).testBit i = false := by
  rw [usize_mask_shift k hk, Nat.testBit_shiftLeft]
  simp [Nat.not_le.mpr hik]

/-- Whatever the first operand, masking with `2 ^ 64 - 2 ^ k` produces a
multiple of `2 ^ k`. -/
theorem two_pow_dvd_land_mask (x k : Nat) (hk : k ≤ 64) :
    2 ^ k ∣ x &&& (2 ^ 64 - 2 ^ k) := by
  apply Nat.dvd_of_mod_eq_zero
  apply Nat.eq_of_testBit_eq
  intro i
  rw [Nat.testBit_mod_two_pow, Nat.zero_testBit]
  by_cases hi : i < k
  · rw [Nat.testBit_land, usize_mask_testBit_low k i hk hi, Bool.and_false,
      Bool.and_false]
  · simp [hi]

/-- The function `align_up` returns a multiple of the alignment whenever the alignment is
a power of two representable in `size_t`. -/
theorem align_up_mod_eq_zero (v k : Nat) (hk : k ≤ 64) :
    StackAllocator.align_up v (2 ^ k) % 2 ^ k = 0 := by
  apply Nat.mod_eq_zero_of_dvd
  rw [StackAllocator.align_up, usize_mask_eq k hk]
  exact two_pow_dvd_land_mask _ k hk

/-! ## Structure of the pool slot universe -/

theorem mem_chunkSlots {s : Slot} {c count : Nat} :
    s ∈ chunkSlots c count ↔ s.1 = c ∧ s.2 < count := by
  cases s with
  | mk c2 i =>
    simp only [chunkSlots, List.mem_map, List.mem_range, Prod.mk.injEq]
    constructor
    · rintro ⟨i2, hi2, rfl, rfl⟩
      exact ⟨rfl, hi2⟩
    · rintro ⟨rfl, hi⟩
      exact ⟨i, hi, rfl, rfl⟩

theorem chunkSlots_nodup (c count : Nat) : (chunkSlots c count).Nodup := by
  apply List.Nodup.map _ (List.nodup_range count)
  intro i j hij
  exact (Prod.mk.injEq _ _ _ _ ▸ hij).2

theorem chunkSlots_length (c count : Nat) :
    (chunkSlots c count).length = count := by
  simp [chunkSlots]

theorem allSlots_nodup (p : PoolAllocator) : (allSlots p).Nodup := by
  rw [allSlots, List.nodup_flatMap]
  refine ⟨fun c _ => chunkSlots_nodup c p.objectsPerChunk, ?_⟩
  apply (List.pairwise_lt_range _).imp
  intro c1 c2 hlt s hs1 hs2
  have h1 := (mem_chunkSlots.mp hs1).1
  have h2 := (mem_chunkSlots.mp hs2).1
  omega

theorem range_flatMap_chunkSlots_length (n count : Nat) :
    ((List.range n).flatMap fun c => chunkSlots c count).length = n * count := by
  induction n with
  | zero => simp
  | succ m ih =>
    rw [List.range_succ, List.flatMap_append, List.length_append, ih]
    simp [chunkSlots_length, Nat.succ_mul]

theorem allSlots_length (p : PoolAllocator) :
    (allSlots p).length = p.chunks * p.objectsPerChunk :=
  range_flatMap_chunkSlots_length p.chunks p.objectsPerChunk

theorem allSlots_allocateChunk (p : PoolAllocator) :
    allSlots p.allocateChunk =
      allSlots p ++ chunkSlots p.chunks p.objectsPerChunk := by
  simp [allSlots, PoolAllocator.allocateChunk, List.range_succ,
    List.flatMap_append]

/-! ## Preservation of the pool conservation invariant -/

theorem poolInv_allocateChunk {p : PoolAllocator} {live : List Slot}
    (h : PoolInv p live) : PoolInv p.allocateChunk live := by
  refine ⟨?_, h.2⟩
  rw [allSlots_allocateChunk]
  show List.Perm ((chunkSlots p.chunks p.objectsPerChunk ++ p.freeList) ++ live)
    (allSlots p ++ chunkSlots p.chunks p.objectsPerChunk)
  rw [List.append_assoc]
  exact (h.1.append_left _).trans List.perm_append_comm

theorem perm_cons_removeSlot {b : Slot} :
    ∀ {l : List Slot}, b ∈ l → l.Perm (b :: removeSlot l b)
  | [], h => absurd h (List.not_mem_nil b)
  | x :: xs, h => by
    rw [removeSlot]
    by_cases hx : x = b
    · subst hx
      rw [if_pos rfl]
    · rw [if_neg hx]
      have hb : b ∈ xs := by
        cases List.mem_cons.mp h with
        | inl heq => exact absurd heq.symm hx
        | inr hmem => exact hmem
      exact ((perm_cons_removeSlot hb).cons x).trans (List.Perm.swap b x _)

theorem length_removeSlot {b : Slot} :
    ∀ {l : List Slot}, b ∈ l → (removeSlot l b).length = l.length - 1 := by
  intro l hb
  have := (perm_cons_removeSlot hb).length_eq
  simp only [List.length_cons] at this
  omega

theorem poolInv_step {s s1 : PoolAllocator × List Slot} {op : PoolOp}
    (hstep : stepPool s op = some s1) (hinv : PoolInv s.1 s.2) :
    PoolInv s1.1 s1.2 := by
  obtain ⟨p, live⟩ := s
  have h : PoolInv p live := hinv
  cases op with
  | alloc =>
    have hq : PoolInv (if p.freeList.isEmpty then p.allocateChunk else p) live := by
      split
      · exact poolInv_allocateChunk h
      · exact h
    have hall : p.allocate =
        match (if p.freeList.isEmpty then p.allocateChunk else p).freeList with
        | [] => (none, if p.freeList.isEmpty then p.allocateChunk else p)
        | b :: rest =>
          (some b,
            { (if p.freeList.isEmpty then p.allocateChunk else p) with
              freeList := rest,
              totalAllocated :=
                (if p.freeList.isEmpty then p.allocateChunk else p).totalAllocated
                  + 1 }) := rfl
    revert hq hall
    generalize (if p.freeList.isEmpty then p.allocateChunk else p) = q
    intro hq hall
    rw [stepPool] at hstep
    match hfl : q.freeList with
    | [] =>
      rw [hall] at hstep
      simp only [hfl] at hstep
      exact Option.noConfusion hstep
    | b :: rest =>
      rw [hall] at hstep
      simp only [hfl, Option.some.injEq] at hstep
      subst hstep
      have hperm := hq.1
      rw [hfl] at hperm
      constructor
      · show List.Perm (rest ++ (b :: live)) (allSlots q)
        exact List.perm_middle.trans hperm
      · show q.totalAllocated + 1 = q.totalDeallocated + (b :: live).length
        have := hq.2
        simp only [List.length_cons]
        omega
  | dealloc b =>
    rw [stepPool] at hstep
    split at hstep
    case isTrue hb0 =>
      replace hb0 : b ∈ live := hb0
      have hb := hb0
      simp only [Option.some.injEq] at hstep
      subst hstep
      constructor
      · show List.Perm ((b :: p.freeList) ++ removeSlot live b) (allSlots p)
        have h1 : List.Perm (b :: (p.freeList ++ removeSlot live b))
            (p.freeList ++ (b :: removeSlot live b)) := List.perm_middle.symm
        have h2 : List.Perm (p.freeList ++ (b :: removeSlot live b))
            (p.freeList ++ live) :=
          ((perm_cons_removeSlot hb).symm).append_left _
        exact (h1.trans h2).trans h.1
      · show p.totalAllocated =
          (p.totalDeallocated + 1) + (removeSlot live b).length
        have h2 := h.2
        have hlen := length_removeSlot hb
        have hpos : 0 < live.length :=
          List.length_pos.mpr (List.ne_nil_of_mem hb)
        omega
    case isFalse => exact absurd hstep (by simp)

theorem poolInv_run {s s1 : PoolAllocator × List Slot} {ops : List PoolOp}
    (hrun : runPool s ops = some s1) (h : PoolInv s.1 s.2) :
    PoolInv s1.1 s1.2 := by
  induction ops generalizing s with
  | nil =>
    rw [runPool] at hrun
    cases hrun
    exact h
  | cons op ops ih =>
    rw [runPool] at hrun
    match hstep : stepPool s op with
    | none => rw [hstep] at hrun; simp at hrun
    | some s2 =>
      rw [hstep] at hrun
      exact ih hrun (poolInv_step hstep h)

theorem poolInv_init (B : Nat) : PoolInv (PoolAllocator.init B) [] := by
  apply poolInv_allocateChunk
  exact ⟨by simp [allSlots], by simp⟩

/-! ## Claim C1 -/

/-- C1 counterexample: the capacity check of `ArenaAllocator::allocate` is
performed on the wrapped `size_t` sum `aligned_offset + bytes`.  On an arena
of capacity 10 with cursor 2, requesting `2 ^ 64 - 1` bytes at alignment 1
yields aligned offset 2, and `2 + (2 ^ 64 - 1)` exceeds the capacity 10, so
the claim requires the out-of-memory result; instead the sum wraps to 1, the
check passes, the call returns address 2 and sets the cursor to 1. -/
theorem claim_C1_counterexample :
    (ArenaAllocator.allocate { size := 10, offset := 2 } (2 ^ 64 - 1) 1).1 =
      some 2 ∧
    (ArenaAllocator.allocate { size := 10, offset := 2 } (2 ^ 64 - 1) 1).2.offset
      = 1 ∧
    10 < 2 + (2 ^ 64 - 1) := by
  refine ⟨?_, ?_, by decide⟩ <;> decide

/-- C1 (amended): for every requested size `bytes` and power-of-two
`alignment`, `ArenaAllocator::allocate` first computes the aligned offset
`(offset + alignment - 1) & ~(alignment - 1)`; provided the sum of that
aligned offset and `bytes` does not overflow `size_t`, if the sum exceeds
the capacity the call fails with the out-of-memory result (null address) and
leaves the whole state — in particular the backing-storage capacity —
unchanged (the allocator never grows), and otherwise it returns the address
at the aligned offset and sets the cursor to aligned offset plus `bytes`. -/
theorem claim_C1_arena_allocate (a : ArenaAllocator) (bytes alignment k : Nat)
    (_hpow : alignment = 2 ^ k) (_hk : k ≤ 64)
    (hnof : (((a.offset + alignment - 1) % USIZE) &&&
      (USIZE - 1 - (alignment - 1))) + bytes < USIZE) :
    (a.size < (((a.offset + alignment - 1) % USIZE) &&&
        (USIZE - 1 - (alignment - 1))) + bytes →
      a.allocate bytes alignment = (none, a)) ∧
    ((((a.offset + alignment - 1) % USIZE) &&&
        (USIZE - 1 - (alignment - 1))) + bytes ≤ a.size →
      a.allocate bytes alignment =
        (some (((a.offset + alignment - 1) % USIZE) &&&
          (USIZE - 1 - (alignment - 1))),
         { a with offset := (((a.offset + alignment - 1) % USIZE) &&&
            (USIZE - 1 - (alignment - 1))) + bytes })) := by
  have hmod := Nat.mod_eq_of_lt hnof
  constructor
  · intro hlt
    simp only [ArenaAllocator.allocate, hmod]
    rw [if_pos hlt]
  · intro hle
    simp only [ArenaAllocator.allocate, hmod]
    rw [if_neg (by omega)]

/-- Witness for C1 (amended): on an arena of capacity 64 with cursor 3, a
13-byte request at alignment 8 succeeds at address 8 and moves the cursor to
21, and a 100-byte request fails and leaves the state unchanged. -/
theorem claim_C1_arena_allocate_witness :
    ((((3 + 8 - 1) % USIZE) &&& (USIZE - 1 - (8 - 1))) + 13 ≤ 64 ∧
      ArenaAllocator.allocate { size := 64, offset := 3 } 13 8 =
        (some 8, { size := 64, offset := 21 })) ∧
    (64 < (((3 + 8 - 1) % USIZE) &&& (USIZE - 1 - (8 - 1))) + 100 ∧
      ArenaAllocator.allocate { size := 64, offset := 3 } 100 8 =
        (none, { size := 64, offset := 3 })) :=
  ⟨⟨by decide,
    ((claim_C1_arena_allocate { size := 64, offset := 3 } 13 8 3 (by decide)
      (by decide) (by decide)).2 (by decide)).trans (by decide)⟩,
   ⟨by decide,
    (claim_C1_arena_allocate { size := 64, offset := 3 } 100 8 3 (by decide)
      (by decide) (by decide)).1 (by decide)⟩⟩

/-! ## Claim C3 -/

/-- C3 counterexample: `ArenaAllocator::restore` performs no validation of
the marker.  On an arena with current offset 0, restoring to the marker 5
(which is greater than the current offset) silently sets the offset to 5
instead of reporting an error and leaving the offset unchanged. -/
theorem claim_C3_counterexample :
    (ArenaAllocator.restore { size := 64, offset := 0 } 5).offset = 5 ∧
    (ArenaAllocator.restore { size := 64, offset := 0 } 5).offset ≠ 0 ∧
    0 < 5 := by
  decide

/-- C3 (amended): for the StackAllocator of basic_stack.cpp, restoring to a
marker greater than the current offset reports the invalid-marker warning
and leaves the allocator state (in particular the offset) unchanged; the
ArenaAllocator of arena-vs-pool.cpp, however, performs no such validation:
its restore sets the offset to the requested marker unconditionally and
silently, even when the marker exceeds the current offset. -/
theorem claim_C3_restore_validation (st : StackAllocator) (a : ArenaAllocator)
    (m : Nat) (hst : st.current_offset < m) (_ha : a.offset < m) :
    st.free_to_marker m = (st, true) ∧
    a.restore m = { a with offset := m } := by
  constructor
  · rw [StackAllocator.free_to_marker, if_pos hst]
  · rfl

/-- Witness for C3 (amended): concrete stack and arena states with offset 7
and marker 9. -/
theorem claim_C3_restore_validation_witness :
    (7 < 9 ∧
      StackAllocator.free_to_marker { total_size := 64, current_offset := 7 } 9 =
        ({ total_size := 64, current_offset := 7 }, true)) ∧
    ArenaAllocator.restore { size := 64, offset := 7 } 9 =
      { size := 64, offset := 9 } :=
  ⟨⟨by decide,
    (claim_C3_restore_validation { total_size := 64, current_offset := 7 }
      { size := 64, offset := 7 } 9 (by decide) (by decide)).1⟩,
   (claim_C3_restore_validation { total_size := 64, current_offset := 7 }
      { size := 64, offset := 7 } 9 (by decide) (by decide)).2⟩

/-! ## Claim C7 -/

/-- C7: for the Arena and Stack allocators, for every requested alignment
that is a power of two (representable in `size_t`), every address returned
by a successful allocate satisfies address mod alignment = 0.  Addresses are
offsets from the buffer base, which both allocators align with the mask
formula. -/
theorem claim_C7_alignment (a : ArenaAllocator) (st : StackAllocator)
    (bytes k addr1 addr2 : Nat) (a1 : ArenaAllocator) (st1 : StackAllocator)
    (hk : k ≤ 64)
    (harena : a.allocate bytes (2 ^ k) = (some addr1, a1))
    (hstack : st.allocate bytes (2 ^ k) = (some addr2, st1)) :
    addr1 % 2 ^ k = 0 ∧ addr2 % 2 ^ k = 0 := by
  constructor
  · have key := align_up_mod_eq_zero a.offset k hk
    rw [ArenaAllocator.allocate] at harena
    split at harena
    · exact Option.noConfusion (congrArg Prod.fst harena)
    · have haddr : addr1 = StackAllocator.align_up a.offset (2 ^ k) :=
        (Option.some.injEq _ _ ▸ congrArg Prod.fst harena).symm
      rw [haddr]
      exact key
  · have key := align_up_mod_eq_zero st.current_offset k hk
    rw [StackAllocator.allocate] at hstack
    split at hstack
    · exact Option.noConfusion (congrArg Prod.fst hstack)
    · have haddr : addr2 = StackAllocator.align_up st.current_offset (2 ^ k) :=
        (Option.some.injEq _ _ ▸ congrArg Prod.fst hstack).symm
      rw [haddr]
      exact key

/-- Witness for C7: with cursor 3 and alignment 8 both allocators return
address 8, and 8 mod 8 = 0. -/
theorem claim_C7_alignment_witness :
    ArenaAllocator.allocate { size := 64, offset := 3 } 13 (2 ^ 3) =
      (some 8, { size := 64, offset := 21 }) ∧
    StackAllocator.allocate { total_size := 64, current_offset := 3 } 13 (2 ^ 3)
      = (some 8, { total_size := 64, current_offset := 21 }) ∧
    8 % 2 ^ 3 = 0 ∧ 8 % 2 ^ 3 = 0 :=
  ⟨by decide, by decide,
    claim_C7_alignment { size := 64, offset := 3 }
      { total_size := 64, current_offset := 3 } 13 3 8 8
      { size := 64, offset := 21 } { total_size := 64, current_offset := 21 }
      (by decide) (by decide) (by decide)⟩

/-! ## Claim C9 -/

/-- C9: whenever `allocate` of the Arena or Stack allocator fails with the
out-of-memory result, the allocator state is unchanged — the cursor keeps
its prior value and no alignment padding is retained — so a subsequent
allocation behaves as if the failed call never happened. -/
theorem claim_C9_failed_allocate_preserves_state (a : ArenaAllocator)
    (st : StackAllocator) (bytes alignment : Nat)
    (harena : (a.allocate bytes alignment).1 = none)
    (hstack : (st.allocate bytes alignment).1 = none) :
    (a.allocate bytes alignment).2 = a ∧
    (st.allocate bytes alignment).2 = st := by
  constructor
  · rw [ArenaAllocator.allocate]
    rw [ArenaAllocator.allocate] at harena
    split at harena
    case isTrue h => rw [if_pos h]
    case isFalse h => exact Option.noConfusion harena
  · rw [StackAllocator.allocate]
    rw [StackAllocator.allocate] at hstack
    split at hstack
    case isTrue h => rw [if_pos h]
    case isFalse h => exact Option.noConfusion hstack

/-- Witness for C9: a 100-byte request on 64-byte allocators with cursor 3
fails and leaves both states unchanged. -/
theorem claim_C9_failed_allocate_preserves_state_witness :
    (ArenaAllocator.allocate { size := 64, offset := 3 } 100 8).1 = none ∧
    (StackAllocator.allocate { total_size := 64, current_offset := 3 } 100 8).1
      = none ∧
    (ArenaAllocator.allocate { size := 64, offset := 3 } 100 8).2 =
      { size := 64, offset := 3 } ∧
    (StackAllocator.allocate { total_size := 64, current_offset := 3 } 100 8).2
      = { total_size := 64, current_offset := 3 } :=
  ⟨by decide, by decide,
    claim_C9_failed_allocate_preserves_state { size := 64, offset := 3 }
      { total_size := 64, current_offset := 3 } 100 8 (by decide) (by decide)⟩

/-! ## Evaluation lemmas for the growable pool allocate -/

theorem chunkSlots_cons (c m : Nat) :
    chunkSlots c (m + 1) =
      (c, 0) :: ((List.range m).map Nat.succ).map (fun i => (c, i)) := by
  rw [chunkSlots, List.range_succ_eq_map, List.map_cons]

theorem pool_allocate_of_cons (p : PoolAllocator) (b : Slot)
    (rest : List Slot) (h : p.freeList = b :: rest) :
    p.allocate =
      (some b,
        { p with freeList := rest,
                 totalAllocated := p.totalAllocated + 1 }) := by
  rw [PoolAllocator.allocate]
  simp only [h, List.isEmpty_cons, Bool.false_eq_true, if_false]

theorem pool_allocate_of_nil (p : PoolAllocator) (rest : List Slot)
    (h : p.freeList = []) (hc : p.allocateChunk.freeList = (p.chunks, 0) :: rest) :
    p.allocate =
      (some (p.chunks, 0),
        { p.allocateChunk with
            freeList := rest,
            totalAllocated := p.allocateChunk.totalAllocated + 1 }) := by
  rw [PoolAllocator.allocate]
  have he : p.freeList.isEmpty = true := by rw [h]; rfl
  simp only [he, if_true, hc]

theorem allocateChunk_freeList_of_nil (p : PoolAllocator) (m : Nat)
    (h : p.freeList = []) (hB : p.objectsPerChunk = m + 1) :
    p.allocateChunk.freeList =
      (p.chunks, 0) ::
        ((List.range m).map Nat.succ).map (fun i => (p.chunks, i)) := by
  show chunkSlots p.chunks p.objectsPerChunk ++ p.freeList = _
  rw [h, List.append_nil, hB, chunkSlots_cons]

/-! ## Claim C2 -/

/-- C2: whenever `PoolAllocator::allocate()` finds the free list empty it
creates exactly one new chunk of `objectsPerChunk` slots, links the new
chunk slots in index order in front of the previous free-list head (the
whole chunk is prepended), records the chunk in the owned chunk collection
(the chunk count grows by exactly one), and the retried pop succeeds,
returning the first slot of the new chunk; hence for a positive
slots-per-chunk count, `allocate()` on the growable pool always succeeds
(chunk storage itself is always obtained in the model). -/
theorem claim_C2_pool_growth (p : PoolAllocator)
    (hB : 1 ≤ p.objectsPerChunk) :
    (p.freeList = [] →
      p.allocateChunk.freeList =
        chunkSlots p.chunks p.objectsPerChunk ++ p.freeList ∧
      p.allocateChunk.chunks = p.chunks + 1 ∧
      (p.allocate).1 = some (p.chunks, 0) ∧
      (p.allocate).2.chunks = p.chunks + 1) ∧
    (p.allocate).1.isSome = true := by
  obtain ⟨m, hm⟩ : ∃ m, p.objectsPerChunk = m + 1 :=
    ⟨p.objectsPerChunk - 1, by omega⟩
  have hnil : p.freeList = [] →
      p.allocateChunk.freeList =
        chunkSlots p.chunks p.objectsPerChunk ++ p.freeList ∧
      p.allocateChunk.chunks = p.chunks + 1 ∧
      (p.allocate).1 = some (p.chunks, 0) ∧
      (p.allocate).2.chunks = p.chunks + 1 := by
    intro h
    have hc := allocateChunk_freeList_of_nil p m h hm
    have halloc := pool_allocate_of_nil p _ h hc
    refine ⟨rfl, rfl, ?_, ?_⟩
    · rw [halloc]
    · rw [halloc]
      rfl
  refine ⟨hnil, ?_⟩
  match hfl : p.freeList with
  | [] =>
    rw [(hnil hfl).2.2.1]
    rfl
  | b :: rest =>
    rw [pool_allocate_of_cons p b rest hfl]
    rfl

/-- Witness for C2: a pool with two slots per chunk, one chunk, and an empty
free list grows by one chunk and the retried pop returns slot (1, 0). -/
theorem claim_C2_pool_growth_witness :
    1 ≤ (2 : Nat) ∧
    (PoolAllocator.allocate
      { freeList := [], chunks := 1, objectsPerChunk := 2,
        totalAllocated := 2, totalDeallocated := 0 }).1 = some (1, 0) ∧
    (PoolAllocator.allocate
      { freeList := [], chunks := 1, objectsPerChunk := 2,
        totalAllocated := 2, totalDeallocated := 0 }).2.chunks = 2 :=
  ⟨by decide,
   ((claim_C2_pool_growth
      { freeList := [], chunks := 1, objectsPerChunk := 2,
        totalAllocated := 2, totalDeallocated := 0 } (by decide)).1 rfl).2.2.1,
   ((claim_C2_pool_growth
      { freeList := [], chunks := 1, objectsPerChunk := 2,
        totalAllocated := 2, totalDeallocated := 0 } (by decide)).1 rfl).2.2.2⟩

/-! ## Claim C6 -/

/-- C6: for every pool state and every slot b previously returned by this
pool and not currently free, `deallocate(b)` makes b the head of the free
list and the immediately following `allocate()` returns exactly b
(last-freed-first-reused round trip). -/
theorem claim_C6_pool_lifo_roundtrip (p : PoolAllocator) (b : Slot)
    (_hnotfree : b ∉ p.freeList) :
    (p.deallocate (some b)).freeList.head? = some b ∧
    ((p.deallocate (some b)).allocate).1 = some b := by
  have hd : (p.deallocate (some b)).freeList = b :: p.freeList := rfl
  constructor
  · rw [hd]
    rfl
  · rw [pool_allocate_of_cons (p.deallocate (some b)) b p.freeList hd]

/-- Witness for C6: deallocating slot (0, 0) into a pool whose free list is
[(0, 1)] puts it at the head, and the next allocate returns it. -/
theorem claim_C6_pool_lifo_roundtrip_witness :
    ((0, 0) : Slot) ∉ [((0, 1) : Slot)] ∧
    ((PoolAllocator.deallocate
      { freeList := [(0, 1)], chunks := 1, objectsPerChunk := 2,
        totalAllocated := 1, totalDeallocated := 0 }
      (some (0, 0))).freeList.head? = some (0, 0)) ∧
    (((PoolAllocator.deallocate
      { freeList := [(0, 1)], chunks := 1, objectsPerChunk := 2,
        totalAllocated := 1, totalDeallocated := 0 }
      (some (0, 0))).allocate).1 = some (0, 0)) :=
  ⟨by decide,
   claim_C6_pool_lifo_roundtrip
     { freeList := [(0, 1)], chunks := 1, objectsPerChunk := 2,
       totalAllocated := 1, totalDeallocated := 0 } (0, 0) (by decide)⟩

/-! ## Evaluation of consecutive allocations on the fixed-capacity pool -/

theorem allocIter_init_closed (n : Nat) :
    ∀ j, j ≤ n →
      SimplePoolAllocator.allocIter (SimplePoolAllocator.init n) j =
        ((List.range j).map some,
         { poolSize := n, free_head := List.range' j (n - j),
           allocated_count := j })
  | 0, _ => by
    rw [SimplePoolAllocator.allocIter, SimplePoolAllocator.init]
    rw [Nat.sub_zero, ← List.range_eq_range']
    rfl
  | j + 1, hj => by
    rw [SimplePoolAllocator.allocIter,
      allocIter_init_closed n j (Nat.le_of_succ_le hj)]
    obtain ⟨m, hm⟩ : ∃ m, n - j = m + 1 := ⟨n - j - 1, by omega⟩
    have hfree : List.range' j (n - j) = j :: List.range' (j + 1) m := by
      rw [hm, List.range'_succ]
    have hm2 : n - (j + 1) = m := by omega
    simp only [hfree, SimplePoolAllocator.allocate, hm2, List.range_succ,
      List.map_append, List.map_cons, List.map_nil]

/-! ## Claim C4 -/

/-- C4: for a fixed-capacity pool with n slots and no growth, starting from
a fresh pool, each of the first n `allocate()` calls succeeds, the
(n+1)-th `allocate()` with none freed fails with the out-of-memory signal
(the thrown `std::bad_alloc`), and after exactly one `deallocate` of a
previously returned slot the next `allocate()` succeeds again, returning
that slot. -/
theorem claim_C4_fixed_pool_exhaustion (n : Nat) :
    (∀ r ∈ (SimplePoolAllocator.allocIter (SimplePoolAllocator.init n) n).1,
      r.isSome = true) ∧
    (SimplePoolAllocator.allocIter (SimplePoolAllocator.init n) n).1.length
      = n ∧
    (((SimplePoolAllocator.allocIter (SimplePoolAllocator.init n) n).2.allocate).1
      = none) ∧
    (∀ s : Nat,
      some s ∈ (SimplePoolAllocator.allocIter (SimplePoolAllocator.init n) n).1 →
      ((((SimplePoolAllocator.allocIter (SimplePoolAllocator.init n) n).2.deallocate
          (some (s : Int))).allocate).1 = some s)) := by
  have hiter := allocIter_init_closed n n (Nat.le_refl n)
  rw [hiter]
  have hempty : List.range' n (n - n) = [] := by
    rw [Nat.sub_self]
    rfl
  rw [hempty]
  refine ⟨?_, ?_, rfl, ?_⟩
  · intro r hr
    obtain ⟨x, _, hx⟩ := List.mem_map.mp hr
    rw [← hx]
    rfl
  · rw [List.length_map, List.length_range]
  · intro s hs
    simp only [List.mem_map, Option.some.injEq] at hs
    obtain ⟨x, hxmem, rfl⟩ := hs
    have hsn : x < n := List.mem_range.mp hxmem
    have hin : ¬((x : Int) < 0 ∨ ((n : Nat) : Int) ≤ (x : Int)) := by
      omega
    show ((SimplePoolAllocator.deallocate _ _).allocate).1 = some x
    rw [SimplePoolAllocator.deallocate]
    rw [if_neg hin]
    simp only [SimplePoolAllocator.allocate, Int.toNat_natCast]

/-- Witness for C4: a fresh two-slot pool hands out slots 0 and 1, the third
allocate fails, and after deallocating slot 1 the next allocate returns
slot 1. -/
theorem claim_C4_fixed_pool_exhaustion_witness :
    (((SimplePoolAllocator.allocIter (SimplePoolAllocator.init 2) 2).2.allocate).1
      = none) ∧
    some 1 ∈ (SimplePoolAllocator.allocIter (SimplePoolAllocator.init 2) 2).1 ∧
    ((((SimplePoolAllocator.allocIter (SimplePoolAllocator.init 2) 2).2.deallocate
        (some (1 : Int))).allocate).1 = some 1) :=
  ⟨(claim_C4_fixed_pool_exhaustion 2).2.2.1, by decide,
   (claim_C4_fixed_pool_exhaustion 2).2.2.2 1 (by decide)⟩

/-! ## Claim C10 -/

/-- C10: for the fixed-capacity pool allocator, deallocate of a null
pointer, and deallocate of a pointer outside the owned storage range
`[pool_, pool_ + PoolSize * sizeof(T))`, are rejected as no-ops: the whole
state — free list and allocated count — is left unchanged.  This holds for
the manual variant `deallocate(p)` and the allocator_traits variant
`deallocate(p, n)`. -/
theorem claim_C10_deallocate_rejects_invalid (p : SimplePoolAllocator)
    (i : Int) (n : Nat) (hout : i < 0 ∨ (p.poolSize : Int) ≤ i) :
    p.deallocate none = p ∧
    p.deallocate (some i) = p ∧
    p.deallocateTraits none n = p ∧
    p.deallocateTraits (some i) n = p := by
  refine ⟨rfl, ?_, ?_, ?_⟩
  · rw [SimplePoolAllocator.deallocate]
    simp only [if_pos hout]
  · rw [SimplePoolAllocator.deallocateTraits]
    simp
  · rw [SimplePoolAllocator.deallocateTraits]
    by_cases hn : n = 1
    · simp only [hn]
      simp only [ne_eq, not_true_eq_false, false_or]
      rw [if_neg (by simp), if_pos hout]
    · rw [if_pos (Or.inl hn)]

/-- Witness for C10: on a fresh three-slot pool, deallocating null and the
out-of-range slot index 5 leaves the pool unchanged in all variants. -/
theorem claim_C10_deallocate_rejects_invalid_witness :
    ((5 : Int) < 0 ∨ ((SimplePoolAllocator.init 3).poolSize : Int) ≤ 5) ∧
    (SimplePoolAllocator.init 3).deallocate none = SimplePoolAllocator.init 3 ∧
    (SimplePoolAllocator.init 3).deallocate (some 5) =
      SimplePoolAllocator.init 3 ∧
    (SimplePoolAllocator.init 3).deallocateTraits none 1 =
      SimplePoolAllocator.init 3 ∧
    (SimplePoolAllocator.init 3).deallocateTraits (some 5) 1 =
      SimplePoolAllocator.init 3 :=
  ⟨by decide,
   claim_C10_deallocate_rejects_invalid (SimplePoolAllocator.init 3) 5 1
     (by decide)⟩

/-! ## Claim C8 -/

/-- C8 counterexample: the `PoolAllocator` of pooling-allocator.cpp owns its
own pool buffer per instance, yet its `operator==` returns true for every
pair of handles: two handles over distinct backing storage (pool identities
0 and 1) compare equal, contradicting the claim that handles over distinct
backing storage compare unequal. -/
theorem claim_C8_counterexample :
    PoolHandle.eq { poolId := 0 } { poolId := 1 } = true ∧
    ({ poolId := 0 } : PoolHandle).poolId ≠ ({ poolId := 1 } : PoolHandle).poolId
    := by
  decide

/-- C8 (amended): the `StackAllocator` handles of basic_stack_traits.cpp
compare equal if and only if they share the same backing `StackState` (the
same backing storage); the `PoolAllocator` handles of pooling-allocator.cpp,
however, always compare equal — their `operator==` ignores the backing
storage entirely, so handles over distinct backing storage also compare
equal there. -/
theorem claim_C8_handle_equality (a b : StackHandle) (c d : PoolHandle) :
    (StackHandle.eq a b = true ↔ a.state = b.state) ∧
    PoolHandle.eq c d = true := by
  constructor
  · rw [StackHandle.eq]
    exact beq_iff_eq
  · rfl

/-! ## Claim C5 -/

/-- C5: for the growable pool with C chunks of B slots each, after every
sequence of allocate/deallocate calls obeying the no-double-free
precondition, with outstanding allocation count k, exactly C * B - k slots
are reachable from the free list and exactly k slots (those handed out) are
unreachable from it, no slot appears twice in the free list, and every slot
is either in the free list or handed out — never both. -/
theorem claim_C5_pool_conservation (B : Nat) (ops : List PoolOp)
    (p : PoolAllocator) (live : List Slot)
    (hrun : runPool (PoolAllocator.init B, []) ops = some (p, live)) :
    p.freeList.Nodup ∧
    p.freeList.length =
      p.chunks * p.objectsPerChunk - (p.totalAllocated - p.totalDeallocated) ∧
    ((allSlots p).filter fun s => decide (s ∉ p.freeList)).length =
      p.totalAllocated - p.totalDeallocated ∧
    (∀ s ∈ allSlots p,
      (s ∈ p.freeList ∨ s ∈ live) ∧ ¬(s ∈ p.freeList ∧ s ∈ live)) := by
  have hinv : PoolInv p live := poolInv_run hrun (poolInv_init B)
  have hperm := hinv.1
  have hnodAll := allSlots_nodup p
  have hnodApp : (p.freeList ++ live).Nodup := hperm.symm.nodup hnodAll
  obtain ⟨hnodF, hnodL, hdisj⟩ := List.nodup_append.mp hnodApp
  have hlen := hperm.length_eq
  rw [List.length_append, allSlots_length] at hlen
  have hk : p.totalAllocated - p.totalDeallocated = live.length := by
    have := hinv.2
    omega
  refine ⟨hnodF, by omega, ?_, ?_⟩
  · have hfperm := (hperm.symm).filter (fun s => decide (s ∉ p.freeList))
    rw [List.filter_append] at hfperm
    have h1 : p.freeList.filter (fun s => decide (s ∉ p.freeList)) = [] := by
      apply List.filter_eq_nil_iff.mpr
      intro a ha
      simp [ha]
    have h2 : live.filter (fun s => decide (s ∉ p.freeList)) = live := by
      apply List.filter_eq_self.mpr
      intro a ha
      exact decide_eq_true (fun hmem => hdisj hmem ha)
    rw [h1, h2, List.nil_append] at hfperm
    rw [hfperm.length_eq, hk]
  · intro s hsAll
    have hsApp : s ∈ p.freeList ++ live := hperm.mem_iff.mpr hsAll
    exact ⟨List.mem_append.mp hsApp, fun ⟨hf, hl⟩ => hdisj hf hl⟩

/-- Witness for C5: two slots per chunk, three allocations (which grow the
pool to two chunks) followed by one deallocation of the second slot; the
final free list is [(0, 1), (1, 1)] with two slots handed out. -/
theorem claim_C5_pool_conservation_witness :
    runPool (PoolAllocator.init 2, [])
      [PoolOp.alloc, PoolOp.alloc, PoolOp.alloc, PoolOp.dealloc (0, 1)] =
      some ({ freeList := [(0, 1), (1, 1)], chunks := 2, objectsPerChunk := 2,
              totalAllocated := 3, totalDeallocated := 1 },
            [(1, 0), (0, 0)]) ∧
    ([((0 : Nat), (1 : Nat)), (1, 1)] : List Slot).Nodup ∧
    ([((0 : Nat), (1 : Nat)), (1, 1)] : List Slot).length = 2 * 2 - (3 - 1) ∧
    ((allSlots
        { freeList := [(0, 1), (1, 1)], chunks := 2, objectsPerChunk := 2,
          totalAllocated := 3, totalDeallocated := 1 }).filter fun s =>
        decide (s ∉ ([((0 : Nat), (1 : Nat)), (1, 1)] : List Slot))).length =
      3 - 1 :=
  ⟨by decide,
   (claim_C5_pool_conservation 2
     [PoolOp.alloc, PoolOp.alloc, PoolOp.alloc, PoolOp.dealloc (0, 1)]
     { freeList := [(0, 1), (1, 1)], chunks := 2, objectsPerChunk := 2,
       totalAllocated := 3, totalDeallocated := 1 }
     [(1, 0), (0, 0)] (by decide)).1,
   (claim_C5_pool_conservation 2
     [PoolOp.alloc, PoolOp.alloc, PoolOp.alloc, PoolOp.dealloc (0, 1)]
     { freeList := [(0, 1), (1, 1)], chunks := 2, objectsPerChunk := 2,
       totalAllocated := 3, totalDeallocated := 1 }
     [(1, 0), (0, 0)] (by decide)).2.1,
   (claim_C5_pool_conservation 2
     [PoolOp.alloc, PoolOp.alloc, PoolOp.alloc, PoolOp.dealloc (0, 1)]
     { freeList := [(0, 1), (1, 1)], chunks := 2, objectsPerChunk := 2,
       totalAllocated := 3, totalDeallocated := 1 }
     [(1, 0), (0, 0)] (by decide)).2.2.1⟩
